import Mathlib

/-!
Verification of the Telegram rental-listing filter ("rent_searcher").

The repository snapshot contains the front-end sources
(`static/script.js` in two revisions, `static/translations.js`) and the
README.  The back-end extraction-and-query core (`message_parser.py`,
`main.py`) is documented by the specification but its source is not part
of the snapshot, so those components are modelled from the
specification's words; every such definition carries a doc comment
starting with `Modelled from the spec:`.  Front-end functions
(`addChannel`, `removeChannel`, `formatPrice`, `t`) are embedded from the
JavaScript sources directly.
-/

/-- Currency of an extracted price: the two currencies of the data model. -/
inductive Currency where
  | usd
  | vnd
  deriving DecidableEq, Repr

/-- A present price: a non-negative amount together with its currency. -/
structure Price where
  amount : Nat
  currency : Currency
  deriving DecidableEq, Repr

/-- A structured listing record, per the data model: source metadata plus
the extractor outputs.  `price` is `none` when no pattern matched. -/
structure Record where
  id : Nat
  channel : String
  timestamp : Int
  rawText : String
  price : Option Price
  locationTags : List String
  photoRefs : List String
  viewCount : Option Nat
  link : String
  deriving DecidableEq, Repr

/-- Whitespace test for the character-level embedding of
`String.prototype.trim` used by `addChannel` in `static/script.js`. -/
def isWsChar (c : Char) : Bool :=
  c == ' ' || c == '\t' || c == '\n' || c == '\r'

/-- Embeds `input.value.trim()` from `addChannel` (`static/script.js`):
drop leading and trailing whitespace. -/
def trimStr (s : String) : String :=
  String.mk (((s.data.dropWhile isWsChar).reverse.dropWhile isWsChar).reverse)

/-- Embeds the regular-expression test `channelName.match(/^-?\d+$/)` from
`addChannel` (`static/script.js`): an optional leading minus sign followed
by one or more ASCII digits. -/
def isIdString (s : String) : Bool :=
  let t := if s.data.head? == some '-' then s.data.tail else s.data
  !t.isEmpty && t.all Char.isDigit

/-- Embeds the format check of `addChannel` (`static/script.js`):
`channelName.startsWith('@') || channelName.match(/^-?\d+$/)`. -/
def isValidChannelName (s : String) : Bool :=
  s.data.head? == some '@' || isIdString s

/-- Embeds `addChannel` from `static/script.js`: trims the input, rejects
an empty result, a name that neither starts with `@` nor is an optionally
negative digit string, and a name already in the list (each rejection
leaves the list unchanged); otherwise pushes the trimmed name. -/
def addChannel (channels : List String) (input : String) : List String :=
  let channelName := trimStr input
  if channelName = "" then channels
  else if !isValidChannelName channelName then channels
  else if channels.contains channelName then channels
  else channels ++ [channelName]

/-- Embeds `removeChannel` from `static/script.js`:
`channels.filter(ch => ch !== channelName)`. -/
def removeChannel (channels : List String) (channelName : String) : List String :=
  channels.filter (fun ch => ch != channelName)

/-- One front-end channel-list operation. -/
inductive ChannelOp where
  | add (input : String)
  | remove (name : String)

/-- Apply one channel-list operation to the front-end state. -/
def applyChannelOp (channels : List String) : ChannelOp → List String
  | .add input => addChannel channels input
  | .remove name => removeChannel channels name

/-- Run a sequence of channel-list operations from the empty list, as the
front end does starting from a fresh `channels = []` state. -/
def runChannelOps (ops : List ChannelOp) : List String :=
  ops.foldl applyChannelOp []

/-- The channel-list invariant: no duplicates, and every entry passes the
front-end format check. -/
def channelListInvariant (channels : List String) : Prop :=
  channels.Nodup ∧ ∀ c ∈ channels, isValidChannelName c = true

theorem addChannel_invariant {chs : List String} (input : String)
    (h : channelListInvariant chs) : channelListInvariant (addChannel chs input) := by
  unfold addChannel
  dsimp only
  split
  · exact h
  · split
    · exact h
    · split
      · exact h
      · rename_i hne hvalid hmem
        constructor
        · refine List.Nodup.append h.1 (List.nodup_singleton _) ?_
          intro a ha hb
          rw [List.mem_singleton] at hb
          subst hb
          have hnm : trimStr input ∉ chs := by simpa using hmem
          exact hnm ha
        · intro c hc
          rcases List.mem_append.mp hc with hc | hc
          · exact h.2 c hc
          · rw [List.mem_singleton] at hc
            subst hc
            simpa using hvalid

theorem removeChannel_invariant {chs : List String} (name : String)
    (h : channelListInvariant chs) : channelListInvariant (removeChannel chs name) :=
  ⟨h.1.filter _, fun c hc => h.2 c (List.mem_of_mem_filter hc)⟩

theorem applyChannelOp_invariant {chs : List String} (op : ChannelOp)
    (h : channelListInvariant chs) : channelListInvariant (applyChannelOp chs op) := by
  cases op with
  | add input => exact addChannel_invariant input h
  | remove name => exact removeChannel_invariant name h

theorem foldl_channelOps_invariant (ops : List ChannelOp) :
    ∀ chs, channelListInvariant chs → channelListInvariant (ops.foldl applyChannelOp chs) := by
  induction ops with
  | nil => intro chs h; exact h
  | cons op rest ih =>
    intro chs h
    exact ih _ (applyChannelOp_invariant op h)

/-- Claim C9: the front-end channel list contains no duplicates and every
entry starts with `@` or is an optionally-negative decimal-digit string;
`addChannel` rejects empty, format-violating and already-present names,
leaving the list unchanged, and `removeChannel` removes every occurrence,
so any sequence of operations from the empty list preserves the
invariant. -/
theorem channel_list_invariant :
    (∀ ops : List ChannelOp, channelListInvariant (runChannelOps ops)) ∧
    (∀ chs input, trimStr input = "" → addChannel chs input = chs) ∧
    (∀ chs input, isValidChannelName (trimStr input) = false → addChannel chs input = chs) ∧
    (∀ chs input, trimStr input ∈ chs → addChannel chs input = chs) ∧
    (∀ chs name, name ∉ removeChannel chs name) := by
  refine ⟨?_, ?_, ?_, ?_, ?_⟩
  · intro ops
    exact foldl_channelOps_invariant ops [] ⟨List.nodup_nil, by simp⟩
  · intro chs input h
    unfold addChannel
    simp [h]
  · intro chs input h
    unfold addChannel
    dsimp only
    split
    · rfl
    · simp [h]
  · intro chs input h
    unfold addChannel
    dsimp only
    split
    · rfl
    · split
      · rfl
      · rw [if_pos]
        simpa using h
  · intro chs name hmem
    unfold removeChannel at hmem
    have := List.of_mem_filter hmem
    simp at this

/-- Witness for claim C9 at concrete inputs. -/
theorem channel_list_invariant_witness :
    channelListInvariant (runChannelOps [.add "@foo", .add "123", .remove "@foo"]) ∧
    addChannel ["@a"] "  " = ["@a"] ∧
    addChannel ["@a"] "bad" = ["@a"] ∧
    addChannel ["@a"] " @a " = ["@a"] ∧
    "@a" ∉ removeChannel ["@a", "@b", "@a"] "@a" :=
  ⟨channel_list_invariant.1 _,
   channel_list_invariant.2.1 _ _ (by decide),
   channel_list_invariant.2.2.1 _ _ (by decide),
   channel_list_invariant.2.2.2.1 _ _ (by decide),
   channel_list_invariant.2.2.2.2 _ _⟩

/-- Embeds the currency classification of `formatPrice`
(`static/script.js`): `price < 10000` is formatted as USD, any other
amount as VND. -/
def formatPriceCurrency (price : Nat) : Currency :=
  if price < 10000 then .usd else .vnd

/-- Modelled from the spec: the magnitude heuristic of `PriceExtractor`
(`message_parser.py`, whose source is not part of the repository
snapshot): an amount with no explicit currency marker is classified USD
below 10,000 and VND at or above 10,000. -/
def inferCurrency (n : Nat) : Price :=
  if n < 10000 then ⟨n, .usd⟩ else ⟨n, .vnd⟩

/-- Claim C4: extraction-side magnitude inference and display-side
`formatPrice` classify every amount by the identical fixed 10,000
threshold, so the two sides never disagree on the inferred currency. -/
theorem magnitude_heuristic_consistent :
    (∀ n, (inferCurrency n).currency = formatPriceCurrency n) ∧
    (∀ n, n < 10000 → (inferCurrency n).currency = Currency.usd) ∧
    (∀ n, 10000 ≤ n → (inferCurrency n).currency = Currency.vnd) := by
  refine ⟨fun n => ?_, fun n h => ?_, fun n h => ?_⟩ <;>
    simp only [inferCurrency, formatPriceCurrency] <;>
    split <;> first | rfl | omega

/-- Witness for claim C4 at concrete amounts. -/
theorem magnitude_heuristic_consistent_witness :
    (inferCurrency 500).currency = Currency.usd ∧
    (inferCurrency 15000000).currency = Currency.vnd :=
  ⟨magnitude_heuristic_consistent.2.1 500 (by decide),
   magnitude_heuristic_consistent.2.2 15000000 (by decide)⟩

/-- Embeds the `translations.ua` table of `static/translations.js` as an
association list in source order. -/
def uaTranslations : List (String × String) := [
  ("app.title", "🏠 Фільтр оголошень про оренду"),
  ("app.subtitle", "Пошук житла з Telegram каналу"),
  ("stats.total", "Всього оголошень:"),
  ("stats.with_price", "З ціною:"),
  ("stats.with_location", "З локацією:"),
  ("stats.updated", "Оновлено:"),
  ("filters.title", "Налаштування та фільтри"),
  ("filters.channels", "📺 Telegram канали"),
  ("filters.channels_hint", "(наприклад: @arenda_kvartir)"),
  ("filters.add_channel", "➕ Додати"),
  ("filters.no_channels", "Немає доданих каналів"),
  ("filters.search_title", "Фільтри пошуку"),
  ("filters.min_price", "Мінімальна ціна (млн VND або USD)"),
  ("filters.max_price", "Максимальна ціна (млн VND або USD)"),
  ("filters.include_locations", "Включити локації (whitelist)"),
  ("filters.include_hint", "тільки з цими районами"),
  ("filters.exclude_areas", "⛔ Виключити райони (blacklist)"),
  ("filters.exclude_hint", "пошук по всьому тексту, через кому"),
  ("filters.sort", "📊 Сортування"),
  ("filters.sort_hint", "порядок відображення"),
  ("sort.date_desc", "Спочатку нові"),
  ("sort.date_asc", "Спочатку старі"),
  ("sort.price_desc", "Ціна: від більшої до меншої"),
  ("sort.price_asc", "Ціна: від меншої до більшої"),
  ("btn.apply_filters", "🔍 Застосувати фільтри"),
  ("btn.reset", "↺ Скинути"),
  ("btn.refresh", "⟳ Оновити повідомлення"),
  ("results.title", "Результати"),
  ("results.count", "оголошень"),
  ("results.empty", "Натисніть \"Оновити повідомлення\" для завантаження оголошень"),
  ("results.loading", "Завантаження..."),
  ("msg.price_not_set", "Ціна не вказана"),
  ("msg.location_not_set", "Локація не вказана"),
  ("msg.open_telegram", "📱 Відкрити в Telegram"),
  ("notif.channel_added", "Канал {channel} додано"),
  ("notif.channel_removed", "Канал {channel} видалено"),
  ("notif.channel_exists", "Цей канал вже додано"),
  ("notif.channel_invalid", "Канал повинен починатися з @ або бути ID"),
  ("notif.enter_channel", "Введіть назву каналу"),
  ("notif.add_channel_first", "Спочатку додайте хоча б один канал!"),
  ("notif.loading_from_channels", "Завантаження повідомлень з {count} каналів..."),
  ("notif.loaded_messages", "Завантажено {count} повідомлень з {channels} каналів"),
  ("notif.found_messages", "Знайдено {count} оголошень"),
  ("notif.no_results", "Немає оголошень, що відповідають критеріям"),
  ("placeholder.channel", "@channel_name"),
  ("placeholder.min_price", "Від 0"),
  ("placeholder.max_price", "До ∞"),
  ("placeholder.locations", "Mỹ An, An Thượng..."),
  ("placeholder.exclude", "my an, hoa hai, khue my..."),
  ("photo.loading", "📸 Завантаження..."),
  ("photo.error", "⚠️ Помилка завантаження"),
  ("photo.channel_missing", "⚠️ Канал не вказано"),
  ("error.stats_loading", "Помилка завантаження статистики"),
  ("error.messages_loading", "Помилка завантаження повідомлень"),
  ("error.data_loading", "Помилка завантаження даних. Перевірте налаштування API."),
  ("error.refresh", "Помилка оновлення"),
  ("cache.just_now", "Щойно"),
  ("cache.minutes_ago", "{minutes} хв тому"),
  ("cache.not_loaded", "Не завантажено"),
  ("other.views_abbr", "перегл.")]

/-- Embeds the `translations.vi` table of `static/translations.js` as an
association list in source order. -/
def viTranslations : List (String × String) := [
  ("app.title", "🏠 Bộ lọc tin cho thuê nhà"),
  ("app.subtitle", "Tìm kiếm nhà từ kênh Telegram"),
  ("stats.total", "Tổng tin đăng:"),
  ("stats.with_price", "Có giá:"),
  ("stats.with_location", "Có địa điểm:"),
  ("stats.updated", "Cập nhật:"),
  ("filters.title", "Cài đặt và bộ lọc"),
  ("filters.channels", "📺 Kênh Telegram"),
  ("filters.channels_hint", "(ví dụ: @arenda_kvartir)"),
  ("filters.add_channel", "➕ Thêm"),
  ("filters.no_channels", "Chưa có kênh nào"),
  ("filters.search_title", "Bộ lọc tìm kiếm"),
  ("filters.min_price", "Giá tối thiểu (triệu VND hoặc USD)"),
  ("filters.max_price", "Giá tối đa (triệu VND hoặc USD)"),
  ("filters.include_locations", "Bao gồm địa điểm (whitelist)"),
  ("filters.include_hint", "chỉ những khu vực này"),
  ("filters.exclude_areas", "⛔ Loại trừ khu vực (blacklist)"),
  ("filters.exclude_hint", "tìm trong toàn bộ văn bản, phân cách bằng dấu phẩy"),
  ("filters.sort", "📊 Sắp xếp"),
  ("filters.sort_hint", "thứ tự hiển thị"),
  ("sort.date_desc", "Mới nhất trước"),
  ("sort.date_asc", "Cũ nhất trước"),
  ("sort.price_desc", "Giá: Cao đến thấp"),
  ("sort.price_asc", "Giá: Thấp đến cao"),
  ("btn.apply_filters", "🔍 Áp dụng bộ lọc"),
  ("btn.reset", "↺ Đặt lại"),
  ("btn.refresh", "⟳ Làm mới tin nhắn"),
  ("results.title", "Kết quả"),
  ("results.count", "tin đăng"),
  ("results.empty", "Nhấn \"Làm mới tin nhắn\" để tải tin đăng"),
  ("results.loading", "Đang tải..."),
  ("msg.price_not_set", "Chưa có giá"),
  ("msg.location_not_set", "Chưa có địa điểm"),
  ("msg.open_telegram", "📱 Mở trong Telegram"),
  ("notif.channel_added", "Đã thêm kênh {channel}"),
  ("notif.channel_removed", "Đã xóa kênh {channel}"),
  ("notif.channel_exists", "Kênh này đã được thêm"),
  ("notif.channel_invalid", "Kênh phải bắt đầu bằng @ hoặc là ID"),
  ("notif.enter_channel", "Nhập tên kênh"),
  ("notif.add_channel_first", "Vui lòng thêm ít nhất một kênh trước!"),
  ("notif.loading_from_channels", "Đang tải tin nhắn từ {count} kênh..."),
  ("notif.loaded_messages", "Đã tải {count} tin nhắn từ {channels} kênh"),
  ("notif.found_messages", "Tìm thấy {count} tin đăng"),
  ("notif.no_results", "Không có tin đăng phù hợp với tiêu chí"),
  ("placeholder.channel", "@ten_kenh"),
  ("placeholder.min_price", "Từ 0"),
  ("placeholder.max_price", "Đến ∞"),
  ("placeholder.locations", "Mỹ An, An Thượng..."),
  ("placeholder.exclude", "my an, hoa hai, khue my..."),
  ("photo.loading", "📸 Đang tải..."),
  ("photo.error", "⚠️ Lỗi tải"),
  ("photo.channel_missing", "⚠️ Chưa có kênh"),
  ("error.stats_loading", "Lỗi tải thống kê"),
  ("error.messages_loading", "Lỗi tải tin nhắn"),
  ("error.data_loading", "Lỗi tải dữ liệu. Kiểm tra cài đặt API."),
  ("error.refresh", "Lỗi làm mới"),
  ("cache.just_now", "Vừa xong"),
  ("cache.minutes_ago", "{minutes} phút trước"),
  ("cache.not_loaded", "Chưa tải"),
  ("other.views_abbr", "lượt xem")]

/-- A JavaScript value as observed from `translations[lang][key]`: an own
string property, a truthy non-string value inherited from
`Object.prototype` (a function such as `toString`, or the prototype
object itself for `__proto__`), or `undefined`. -/
inductive JsValue where
  | str (s : String)
  | inherited (name : String)
  | undefinedVal
  deriving DecidableEq, Repr

/-- JS truthiness of such a value: `undefined` and the empty string are
falsy; every inherited function/object is truthy. -/
def jsTruthy : JsValue → Bool
  | .str s => s != ""
  | .inherited _ => true
  | .undefinedVal => false

/-- Embeds JS `a || b`: `a` when truthy, else `b`. -/
def jsOr (a b : JsValue) : JsValue :=
  if jsTruthy a then a else b

/-- The own property names of `Object.prototype`, inherited by every
object literal such as the `translations.ua` and `translations.vi`
tables. -/
def objectProtoKeys : List String :=
  ["constructor", "hasOwnProperty", "isPrototypeOf", "propertyIsEnumerable",
   "toLocaleString", "toString", "valueOf", "__proto__",
   "__defineGetter__", "__defineSetter__", "__lookupGetter__", "__lookupSetter__"]

/-- Embeds JavaScript property access `table[key]` on an object literal:
an own property shadows the prototype; otherwise the lookup continues on
the prototype chain, where `Object.prototype` supplies a truthy
non-string value for each of its own property names; any other key
yields `undefined`. -/
def jsProp (table : List (String × String)) (key : String) : JsValue :=
  match table.lookup key with
  | some s => .str s
  | none => if objectProtoKeys.contains key then .inherited key else .undefinedVal

/-- Embeds `translations[lang]` from `static/translations.js`: the `ua`
or `vi` table, and `none` otherwise.  (For a stored code that is itself
an `Object.prototype` property name the real access yields an inherited
non-table value rather than `undefined`; both lie outside the supported
languages, and no theorem below relies on this branch.) -/
def translationsFor (lang : String) : Option (List (String × String)) :=
  if lang = "ua" then some uaTranslations
  else if lang = "vi" then some viTranslations
  else none

/-- Splits a character list around the first occurrence of a pattern:
`some (before, after)` such that the input is `before ++ pat ++ after`,
or `none` when the pattern does not occur. -/
def splitAtSub (pat : List Char) : List Char → Option (List Char × List Char)
  | [] => if pat.isEmpty then some ([], []) else none
  | c :: t =>
    if pat.isPrefixOf (c :: t) then some ([], (c :: t).drop pat.length)
    else (splitAtSub pat t).map (fun p => (c :: p.1, p.2))

/-- Embeds the `$`-substitution that JS `String.prototype.replace`
performs on the replacement string: `$$` is a literal dollar, `$&` the
matched pattern, a dollar before a backquote (character code 96) the
text before the match, a dollar before an apostrophe (character code 39)
the text after the match; any other dollar is kept literally. -/
def jsSubstDollar (matched before after : List Char) : List Char → List Char
  | [] => []
  | [c] => [c]
  | c :: d :: rest =>
    if c = '$' then
      if d = '$' then '$' :: jsSubstDollar matched before after rest
      else if d = '&' then matched ++ jsSubstDollar matched before after rest
      else if d.toNat = 96 then before ++ jsSubstDollar matched before after rest
      else if d.toNat = 39 then after ++ jsSubstDollar matched before after rest
      else c :: jsSubstDollar matched before after (d :: rest)
    else c :: jsSubstDollar matched before after (d :: rest)

/-- Embeds JavaScript `text.replace(pat, r)` with string arguments:
replace the first occurrence only (identity when the pattern is absent),
applying the `$`-substitution rules to the replacement string. -/
def jsReplaceFirst (s pat r : String) : String :=
  match splitAtSub pat.data s.data with
  | none => s
  | some (b, a) => String.mk (b ++ jsSubstDollar pat.data b a r.data ++ a)

/-- Embeds the replacement loop of `t` (`static/translations.js`) on a
string: `Object.keys(replacements).forEach(ph => text = text.replace(...))`,
with the placeholder written between literal braces. -/
def applyReplacements (repl : List (String × String)) (text : String) : String :=
  repl.foldl (fun acc p => jsReplaceFirst acc ("\x7b" ++ p.1 ++ "\x7d") p.2) text

/-- Embeds the lookup chain of `t`:
`translations[currentLang][key] || translations['ua'][key] || key`. -/
def tText (table : List (String × String)) (key : String) : JsValue :=
  jsOr (jsProp table key) (jsOr (jsProp uaTranslations key) (.str key))

/-- Embeds the replacement loop of `t` applied to the looked-up value: a
no-op on an empty replacements object; on a string each replacement is
applied; on a non-string value the first iteration calls `text.replace`,
which is `undefined` there, and throws. -/
def tApply (repl : List (String × String)) : JsValue → Except String JsValue
  | .str s => Except.ok (.str (applyReplacements repl s))
  | v =>
    if repl.isEmpty then Except.ok v
    else Except.error "TypeError: text.replace is not a function"

/-- Embeds `t(key, replacements)` from `static/translations.js`.
`storedLang` is `localStorage.getItem('language')` (`none` = JS `null`);
`null || 'ua'` and `'' || 'ua'` both give `'ua'`.  When the stored code
is not a key of `translations`, `translations[currentLang]` is no table
and the lookup fails — embedded as `Except.error`. -/
def t (storedLang : Option String) (key : String)
    (repl : List (String × String)) : Except String JsValue :=
  let currentLang := match storedLang with
    | none => "ua"
    | some l => if l = "" then "ua" else l
  match translationsFor currentLang with
  | none => Except.error "TypeError: cannot read properties of undefined"
  | some table => tApply repl (tText table key)

theorem jsProp_not_proto (tbl : List (String × String)) (key : String)
    (hkey : objectProtoKeys.contains key = false) :
    jsProp tbl key = (match tbl.lookup key with
      | some s => JsValue.str s
      | none => JsValue.undefinedVal) := by
  unfold jsProp
  cases tbl.lookup key with
  | some s => rfl
  | none =>
    have hmem : key ∉ objectProtoKeys := by simpa using hkey
    simp [hmem]

theorem tText_str (table : List (String × String)) (key : String)
    (hkey : objectProtoKeys.contains key = false) :
    ∃ s, tText table key = JsValue.str s ∧
      (table.lookup key = none → uaTranslations.lookup key = none → s = key) := by
  unfold tText
  rw [jsProp_not_proto table key hkey, jsProp_not_proto uaTranslations key hkey]
  cases h1 : table.lookup key with
  | some s1 =>
    by_cases he1 : s1 = ""
    · subst he1
      cases h2 : uaTranslations.lookup key with
      | some s2 =>
        by_cases he2 : s2 = ""
        · subst he2
          refine ⟨key, by simp [jsOr, jsTruthy], ?_⟩
          intro hc _
          simp at hc
        · refine ⟨s2, by simp [jsOr, jsTruthy, he2], ?_⟩
          intro hc _
          simp at hc
      | none =>
        refine ⟨key, by simp [jsOr, jsTruthy], ?_⟩
        intro hc _
        simp at hc
    · refine ⟨s1, by simp [jsOr, jsTruthy, he1], ?_⟩
      intro hc _
      simp at hc
  | none =>
    cases h2 : uaTranslations.lookup key with
    | some s2 =>
      by_cases he2 : s2 = ""
      · subst he2
        refine ⟨key, by simp [jsOr, jsTruthy], ?_⟩
        intro _ hc
        simp at hc
      · refine ⟨s2, by simp [jsOr, jsTruthy, he2], ?_⟩
        intro _ hc
        simp at hc
    | none =>
      exact ⟨key, by simp [jsOr, jsTruthy], fun _ _ => rfl⟩

/-- Counterexample to claim C10 as stated: with stored language `ua` —
inside the claimed precondition — the key `"toString"` finds the
inherited `Object.prototype.toString` function, which is truthy, so the
lookup chain yields a non-string: with a non-empty replacements object
`text.replace` is `undefined` and `t` throws a TypeError, and with no
replacements `t` returns the function rather than a string. -/
theorem t_total_counterexample :
    t (some "ua") "toString" [("count", "3")] =
      Except.error "TypeError: text.replace is not a function" ∧
    t (some "ua") "toString" [] = Except.ok (JsValue.inherited "toString") := by
  constructor <;> rfl

/-- Claim C10 (amended): `t(key, replacements)` is total and returns a
string when the stored language code is `ua`, `vi`, or absent and the
key does not collide with an `Object.prototype` property name: it falls
back from the current language's table to the Ukrainian table and
finally to the key itself, never throwing.  (For a colliding key such as
`"toString"` the first lookup finds the inherited truthy non-string
value, so `t` returns a non-string or throws; and for an unsupported
stored language code totality is likewise not guaranteed.) -/
theorem t_total_amended (storedLang : Option String) (key : String)
    (repl : List (String × String))
    (hlang : storedLang = none ∨ storedLang = some "ua" ∨ storedLang = some "vi")
    (hkey : objectProtoKeys.contains key = false) :
    ∃ s, t storedLang key repl = Except.ok (JsValue.str s) ∧
      (uaTranslations.lookup key = none → viTranslations.lookup key = none →
        s = applyReplacements repl key) := by
  rcases hlang with h | h | h <;> subst h
  · obtain ⟨s0, hs0, hfb⟩ := tText_str uaTranslations key hkey
    refine ⟨applyReplacements repl s0, ?_, ?_⟩
    · show tApply repl (tText uaTranslations key) = _
      rw [hs0]
      rfl
    · intro hua _
      rw [hfb hua hua]
  · obtain ⟨s0, hs0, hfb⟩ := tText_str uaTranslations key hkey
    refine ⟨applyReplacements repl s0, ?_, ?_⟩
    · show tApply repl (tText uaTranslations key) = _
      rw [hs0]
      rfl
    · intro hua _
      rw [hfb hua hua]
  · obtain ⟨s0, hs0, hfb⟩ := tText_str viTranslations key hkey
    refine ⟨applyReplacements repl s0, ?_, ?_⟩
    · show tApply repl (tText viTranslations key) = _
      rw [hs0]
      rfl
    · intro hua hvi
      rw [hfb hvi hua]

/-- Witness for claim C10 (amended) at concrete inputs: a key present in
both tables, and a key present in neither (which falls back to itself
with the replacements applied). -/
theorem t_total_amended_witness :
    (∃ s, t (some "vi") "app.title" [] = Except.ok (JsValue.str s) ∧
      (uaTranslations.lookup "app.title" = none →
        viTranslations.lookup "app.title" = none →
        s = applyReplacements [] "app.title")) ∧
    (∃ s, t none "no.such.key" [("count", "3")] = Except.ok (JsValue.str s) ∧
      (uaTranslations.lookup "no.such.key" = none →
        viTranslations.lookup "no.such.key" = none →
        s = applyReplacements [("count", "3")] "no.such.key")) :=
  ⟨t_total_amended (some "vi") "app.title" [] (Or.inr (Or.inr rfl)) (by decide),
   t_total_amended none "no.such.key" [("count", "3")] (Or.inl rfl) (by decide)⟩

theorem char_toNat_ofNatAux (n : Nat) (h : n.isValidChar) : (Char.ofNatAux n h).toNat = n := by
  unfold Char.ofNatAux Char.toNat
  constructor

theorem char_toNat_ofNat_valid (n : Nat) (h : n.isValidChar) : (Char.ofNat n).toNat = n := by
  unfold Char.ofNat
  rw [dif_pos h]
  exact char_toNat_ofNatAux n h

theorem toLower_toLower (c : Char) : Char.toLower (Char.toLower c) = Char.toLower c := by
  unfold Char.toLower
  dsimp only
  by_cases h : c.toNat ≥ 65 ∧ c.toNat ≤ 90
  · rw [if_pos h]
    have hv : (c.toNat + 32).isValidChar := by
      unfold Nat.isValidChar
      omega
    rw [char_toNat_ofNat_valid _ hv, if_neg (by omega)]
  · rw [if_neg h, if_neg h]

theorem wsChar_toNat (c : Char) (h : isWsChar c = true) :
    c.toNat = 32 ∨ c.toNat = 9 ∨ c.toNat = 10 ∨ c.toNat = 13 := by
  unfold isWsChar at h
  simp only [Bool.or_eq_true, beq_iff_eq] at h
  rcases h with ((h | h) | h) | h <;> subst h <;> decide

theorem toLower_ws (c : Char) : isWsChar (Char.toLower c) = isWsChar c := by
  unfold Char.toLower
  dsimp only
  by_cases h : c.toNat ≥ 65 ∧ c.toNat ≤ 90
  · rw [if_pos h]
    have hv : (c.toNat + 32).isValidChar := by
      unfold Nat.isValidChar
      omega
    have h1 : isWsChar (Char.ofNat (c.toNat + 32)) = false := by
      rw [Bool.eq_false_iff]
      intro hw
      have := wsChar_toNat _ hw
      rw [char_toNat_ofNat_valid _ hv] at this
      omega
    have h2 : isWsChar c = false := by
      rw [Bool.eq_false_iff]
      intro hw
      have := wsChar_toNat _ hw
      omega
    rw [h1, h2]
  · rw [if_neg h]

/-- Modelled from the spec: the whitespace-collapsing step of
`TextNormalizer.normalize` (`message_parser.py`, whose source is not part
of the repository snapshot): every run of consecutive whitespace becomes
a single space. -/
def collapseWs : List Char → List Char
  | [] => []
  | [c] => if isWsChar c then [' '] else [c]
  | c1 :: c2 :: rest =>
    if isWsChar c1 && isWsChar c2 then collapseWs (c2 :: rest)
    else (if isWsChar c1 then ' ' else c1) :: collapseWs (c2 :: rest)

/-- No two adjacent whitespace characters (helper predicate for the
idempotence proof). -/
def noDoubleWs : List Char → Bool
  | [] => true
  | [_] => true
  | c1 :: c2 :: rest => !(isWsChar c1 && isWsChar c2) && noDoubleWs (c2 :: rest)

def wsNormalized (l : List Char) : Bool :=
  l.all (fun c => !isWsChar c || (c == ' '))

theorem collapseWs_cons_not_ws (c : Char) (rest : List Char) (h : isWsChar c = false) :
    collapseWs (c :: rest) = c :: collapseWs rest := by
  cases rest with
  | nil => simp [collapseWs, h]
  | cons d t => simp [collapseWs, h]

theorem collapseWs_mem (l : List Char) :
    ∀ c ∈ collapseWs l, c = ' ' ∨ (c ∈ l ∧ isWsChar c = false) := by
  induction l with
  | nil => intro c hc; simp [collapseWs] at hc
  | cons c1 t ih =>
    intro c hc
    cases t with
    | nil =>
      by_cases h : isWsChar c1 = true
      · simp [collapseWs, h] at hc
        left; exact hc
      · rw [Bool.not_eq_true] at h
        simp [collapseWs, h] at hc
        subst hc
        right
        exact ⟨List.mem_singleton_self _, h⟩
    | cons c2 rest =>
      by_cases h12 : (isWsChar c1 && isWsChar c2) = true
      · rw [show collapseWs (c1 :: c2 :: rest) = collapseWs (c2 :: rest) by
          simp [collapseWs, h12]] at hc
        rcases ih c hc with h | ⟨hm, hw⟩
        · left; exact h
        · right; exact ⟨List.mem_cons_of_mem _ hm, hw⟩
      · rw [show collapseWs (c1 :: c2 :: rest) =
            (if isWsChar c1 then ' ' else c1) :: collapseWs (c2 :: rest) by
          simp [collapseWs, h12]] at hc
        rcases List.mem_cons.mp hc with h | h
        · by_cases h1 : isWsChar c1 = true
          · rw [if_pos h1] at h
            left; exact h
          · rw [Bool.not_eq_true] at h1
            rw [if_neg (by simp [h1])] at h
            subst h
            right
            exact ⟨List.mem_cons_self _ _, h1⟩
        · rcases ih c h with h | ⟨hm, hw⟩
          · left; exact h
          · right; exact ⟨List.mem_cons_of_mem _ hm, hw⟩

theorem noDoubleWs_cons_head (a : Char) (l : List Char) (ha : isWsChar a = false)
    (hl : noDoubleWs l = true) : noDoubleWs (a :: l) = true := by
  cases l with
  | nil => rfl
  | cons d t => simp [noDoubleWs, ha, hl]

theorem collapseWs_noDouble (l : List Char) : noDoubleWs (collapseWs l) = true := by
  induction l with
  | nil => rfl
  | cons c1 t ih =>
    cases t with
    | nil =>
      by_cases h : isWsChar c1 = true <;> simp [collapseWs, h, noDoubleWs]
    | cons c2 rest =>
      by_cases h12 : (isWsChar c1 && isWsChar c2) = true
      · rw [show collapseWs (c1 :: c2 :: rest) = collapseWs (c2 :: rest) by
          simp [collapseWs, h12]]
        exact ih
      · rw [show collapseWs (c1 :: c2 :: rest) =
            (if isWsChar c1 then ' ' else c1) :: collapseWs (c2 :: rest) by
          simp [collapseWs, h12]]
        by_cases h1 : isWsChar c1 = true
        · have h2 : isWsChar c2 = false := by simpa [h1] using h12
          rw [if_pos h1, collapseWs_cons_not_ws c2 rest h2]
          have htail : noDoubleWs (c2 :: collapseWs rest) = true := by
            rw [← collapseWs_cons_not_ws c2 rest h2]
            exact ih
          simp [noDoubleWs, h2, htail]
        · have h1f : isWsChar c1 = false := Bool.eq_false_iff.mpr h1
          rw [if_neg (by simp [h1f])]
          exact noDoubleWs_cons_head c1 _ h1f ih

theorem collapseWs_wsNormalized (l : List Char) : wsNormalized (collapseWs l) = true := by
  rw [wsNormalized, List.all_eq_true]
  intro c hc
  rcases collapseWs_mem l c hc with h | ⟨_, hw⟩
  · subst h
    decide
  · simp [hw]

theorem collapseWs_fixed (l : List Char) (h1 : noDoubleWs l = true)
    (h2 : wsNormalized l = true) : collapseWs l = l := by
  induction l with
  | nil => rfl
  | cons c1 t ih =>
    cases t with
    | nil =>
      by_cases hw : isWsChar c1 = true
      · have : (c1 == ' ') = true := by
          have := (List.all_eq_true.mp h2) c1 (List.mem_singleton_self _)
          simpa [hw] using this
        have hc1 : c1 = ' ' := by simpa using this
        simp [collapseWs, hw, hc1]
      · simp [collapseWs, hw]
    | cons c2 rest =>
      have hnd : (!(isWsChar c1 && isWsChar c2)) = true ∧ noDoubleWs (c2 :: rest) = true := by
        have h1c := h1
        rw [noDoubleWs] at h1c
        exact Bool.and_eq_true_iff.mp h1c
      have h12 : (isWsChar c1 && isWsChar c2) = false := by
        cases hab : (isWsChar c1 && isWsChar c2)
        · rfl
        · rw [hab] at hnd
          exact absurd hnd.1 (by decide)
      have h2tail : wsNormalized (c2 :: rest) = true := by
        rw [wsNormalized, List.all_eq_true]
        intro c hc
        exact (List.all_eq_true.mp h2) c (List.mem_cons_of_mem _ hc)
      rw [show collapseWs (c1 :: c2 :: rest) =
          (if isWsChar c1 then ' ' else c1) :: collapseWs (c2 :: rest) by
        simp [collapseWs, h12]]
      rw [ih hnd.2 h2tail]
      by_cases hw : isWsChar c1 = true
      · have : (c1 == ' ') = true := by
          have := (List.all_eq_true.mp h2) c1 (List.mem_cons_self _ _)
          simpa [hw] using this
        have hc1 : c1 = ' ' := by simpa using this
        rw [if_pos hw, hc1]
      · rw [if_neg hw]

theorem map_eq_self_of_mem {α : Type} (f : α → α) (l : List α)
    (h : ∀ a ∈ l, f a = a) : l.map f = l := by
  induction l with
  | nil => rfl
  | cons a t ih =>
    rw [List.map_cons, h a (List.mem_cons_self a t),
      ih (fun b hb => h b (List.mem_cons_of_mem _ hb))]

theorem map_toLower_collapseWs (l : List Char) :
    (collapseWs (l.map Char.toLower)).map Char.toLower = collapseWs (l.map Char.toLower) := by
  apply map_eq_self_of_mem
  intro c hc
  rcases collapseWs_mem _ c hc with h | ⟨hm, _⟩
  · subst h
    decide
  · rcases List.mem_map.mp hm with ⟨a, _, ha⟩
    rw [← ha]
    exact toLower_toLower a

/-- Modelled from the spec: `TextNormalizer.normalize`
(`message_parser.py`, whose source is not part of the repository
snapshot): lowercase the text and collapse repeated whitespace;
numeric-adjacent punctuation is kept, not stripped. -/
def normalizeText (s : String) : String :=
  String.mk (collapseWs (s.data.map Char.toLower))

theorem normalizeText_data (s : String) :
    (normalizeText s).data = collapseWs (s.data.map Char.toLower) := rfl

/-- Claim C7: `TextNormalizer.normalize` is idempotent. -/
theorem normalize_idempotent (s : String) : normalizeText (normalizeText s) = normalizeText s := by
  unfold normalizeText
  congr 1
  show collapseWs ((collapseWs (s.data.map Char.toLower)).map Char.toLower) =
    collapseWs (s.data.map Char.toLower)
  rw [map_toLower_collapseWs]
  exact collapseWs_fixed _ (collapseWs_noDouble _) (collapseWs_wsNormalized _)

/-- Splits a character list into space-separated words (accumulator holds
the current word reversed). -/
def wordsAux : List Char → List Char → List String
  | [], acc => [String.mk acc.reverse]
  | c :: rest, acc =>
    if c = ' ' then String.mk acc.reverse :: wordsAux rest []
    else wordsAux rest (c :: acc)

/-- Modelled from the spec: tokenization of normalized text for
`PriceExtractor.extract` (`message_parser.py`, whose source is not part
of the repository snapshot).  Normalized text separates words by single
spaces. -/
def tokenize (s : String) : List String :=
  wordsAux s.data []

/-- A thousands-separator character (`.` or `,`), which numeric parsing
must tolerate. -/
def sepChar (c : Char) : Bool :=
  c == '.' || c == ','

/-- Modelled from the spec: a token shaped like a number for the pattern
classes of `PriceExtractor` — non-empty, built only of ASCII digits and
thousands separators.  (Such a token can still be unparsable when it
contains no digit at all, e.g. `","`.) -/
def isNumToken (t : String) : Bool :=
  !t.data.isEmpty && t.data.all (fun c => c.isDigit || sepChar c)

/-- Decimal value of a digit list. -/
def natOfDigits (l : List Char) : Nat :=
  l.foldl (fun n c => n * 10 + (c.toNat - 48)) 0

/-- Modelled from the spec: numeric parsing for `PriceExtractor`
(`message_parser.py`, whose source is not part of the repository
snapshot): thousands separators are dropped, and a token with no digit is
rejected (`none`) rather than guessed. -/
def parseNumTok (t : String) : Option Nat :=
  if t.data.any Char.isDigit then some (natOfDigits (t.data.filter Char.isDigit))
  else none

/-- The million-multiplier tokens of pattern class 1. -/
def multTokens : List String := ["triệu", "tr", "млн"]

/-- The explicit-USD marker tokens of pattern class 2. -/
def usdSuffixTokens : List String := ["usd", "dollars", "$"]

/-- The price-label tokens of pattern class 3. -/
def priceLabels : List String := ["ціна", "price", "giá"]

/-- Modelled from the spec: pattern class 1 of `PriceExtractor.extract`
(`message_parser.py`, whose source is not part of the repository
snapshot) — the first number-shaped token directly followed by a
million-multiplier token (`triệu`/`tr`/`млн`), the optional Dong marker
after it not affecting the result.  Returns the numeric token. -/
def findClass1 : List String → Option String
  | t1 :: t2 :: rest =>
    if isNumToken t1 && multTokens.contains t2 then some t1
    else findClass1 (t2 :: rest)
  | _ => none

/-- The token with its first character removed. -/
def strTail (t : String) : String := String.mk t.data.tail

/-- A `$`-prefixed number-shaped token. -/
def isDollarToken (t : String) : Bool :=
  t.data.head? == some '$' && isNumToken (strTail t)

/-- Modelled from the spec: pattern class 2 of `PriceExtractor.extract` —
a `$`-prefixed number, or a number-shaped token followed by
`usd`/`dollars`/`$`.  Returns the numeric token. -/
def findClass2 : List String → Option String
  | [] => none
  | [t] => if isDollarToken t then some (strTail t) else none
  | t :: t2 :: rest =>
    if isDollarToken t then some (strTail t)
    else if isNumToken t && usdSuffixTokens.contains t2 then some t
    else findClass2 (t2 :: rest)

/-- The token with a trailing colon removed. -/
def stripColon (t : String) : String :=
  if t.data.getLast? == some ':' then String.mk t.data.dropLast else t

/-- A "price"-equivalent label (`ціна`/`price`/`giá`), with an optional
trailing colon. -/
def isPriceLabel (t : String) : Bool :=
  priceLabels.contains (stripColon t)

/-- Modelled from the spec: pattern class 3 of `PriceExtractor.extract` —
a price label followed by a bare number-shaped token.  Returns the
numeric token. -/
def findClass3 : List String → Option String
  | t :: t2 :: rest =>
    if isPriceLabel t && isNumToken t2 then some t2
    else findClass3 (t2 :: rest)
  | _ => none

/-- Parsed amount of pattern class 1 (`none` on structural miss or
unparsable numeric token). -/
def class1Amount (toks : List String) : Option Nat := (findClass1 toks).bind parseNumTok

/-- Parsed amount of pattern class 2. -/
def class2Amount (toks : List String) : Option Nat := (findClass2 toks).bind parseNumTok

/-- Parsed amount of pattern class 3. -/
def class3Amount (toks : List String) : Option Nat := (findClass3 toks).bind parseNumTok

/-- The tail of the extraction cascade: pattern class 2 (explicit USD),
then pattern class 3 (labelled bare number, currency by the magnitude
heuristic), then `none`. -/
def extractFromClass2 (toks : List String) : Option Price :=
  match class2Amount toks with
  | some n => some ⟨n, .usd⟩
  | none =>
    match class3Amount toks with
    | some n => some (inferCurrency n)
    | none => none

/-- Modelled from the spec: `PriceExtractor.extract` (`message_parser.py`,
whose source is not part of the repository snapshot): ordered pattern
classes, first match wins; class 1 yields `number × 1,000,000` VND;
no match (or only unparsable matches) yields `none`, never an error. -/
def extract (text : String) : Option Price :=
  match class1Amount (tokenize text) with
  | some n => some ⟨n * 1000000, .vnd⟩
  | none => extractFromClass2 (tokenize text)

/-- Claim C3: whenever pattern class 1 matches the normalized text with
number `n`, `extract` returns currency VND and amount `n × 1,000,000`. -/
theorem extract_class1_vnd (text : String) (n : Nat)
    (h : class1Amount (tokenize text) = some n) :
    extract text = some ⟨n * 1000000, .vnd⟩ := by
  unfold extract
  rw [h]

/-- Witness for claim C3: `"15 triệu"` yields 15,000,000 VND. -/
theorem extract_class1_vnd_witness :
    extract "15 triệu" = some ⟨15000000, .vnd⟩ :=
  extract_class1_vnd "15 triệu" 15 (by decide)

/-- Claim C8: `extract` never fails — a structural class-1 match whose
numeric token is unparsable falls through to the remaining pattern
classes, and when no class yields an amount the result is `none`
(absent), not an error. -/
theorem extract_never_raises (text : String) :
    (∀ tok, findClass1 (tokenize text) = some tok → parseNumTok tok = none →
      extract text = extractFromClass2 (tokenize text)) ∧
    (class1Amount (tokenize text) = none → class2Amount (tokenize text) = none →
      class3Amount (tokenize text) = none → extract text = none) := by
  constructor
  · intro tok h1 h2
    unfold extract
    rw [show class1Amount (tokenize text) = none by
      unfold class1Amount
      rw [h1]
      simpa using h2]
  · intro h1 h2 h3
    unfold extract
    rw [h1]
    unfold extractFromClass2
    rw [h2, h3]

/-- Witness for claim C8: `", triệu price: 500"` has a structural class-1
match with unparsable token `","` and falls through to class 3; and a
text with no match yields `none`. -/
theorem extract_never_raises_witness :
    extract ", triệu price: 500" = extractFromClass2 (tokenize ", triệu price: 500") ∧
    extract "hello world" = none :=
  ⟨(extract_never_raises ", triệu price: 500").1 "," (by decide) (by decide),
   (extract_never_raises "hello world").2 (by decide) (by decide) (by decide)⟩

/-- A query against the snapshot: optional price bounds, a location
whitelist and a raw-text blacklist. -/
structure Query where
  minPrice : Option Nat
  maxPrice : Option Nat
  includeTerms : List String
  excludeTerms : List String

/-- Whether `needle` occurs as a contiguous sublist of the other list. -/
def hasSubList (needle : List Char) : List Char → Bool
  | [] => needle.isEmpty
  | c :: t => needle.isPrefixOf (c :: t) || hasSubList needle t

/-- Case-insensitive substring test: lowercase both sides, then search
the full haystack. -/
def containsCI (hay needle : String) : Bool :=
  hasSubList (needle.data.map Char.toLower) (hay.data.map Char.toLower)

/-- Modelled from the spec: the `minPrice` clause of `FilterEngine.filter`
(`main.py`/`message_parser.py`, whose source is not part of the
repository snapshot): no bound passes every record, a set bound requires
a present price with amount at least the bound; an absent price fails. -/
def minPriceOk (q : Query) (r : Record) : Bool :=
  match q.minPrice with
  | none => true
  | some p =>
    match r.price with
    | none => false
    | some pr => decide (p ≤ pr.amount)

/-- Modelled from the spec: the `maxPrice` clause of `FilterEngine.filter`,
symmetric to `minPriceOk`. -/
def maxPriceOk (q : Query) (r : Record) : Bool :=
  match q.maxPrice with
  | none => true
  | some p =>
    match r.price with
    | none => false
    | some pr => decide (pr.amount ≤ p)

/-- Modelled from the spec: the whitelist clause of `FilterEngine.filter`:
if non-empty, at least one include term must match one of the record's
location tags (case-insensitive substring against tags, not raw text). -/
def includeOk (q : Query) (r : Record) : Bool :=
  q.includeTerms.isEmpty ||
    q.includeTerms.any (fun term => r.locationTags.any (fun tag => containsCI tag term))

/-- Modelled from the spec: the blacklist clause of `FilterEngine.filter`:
the record is dropped when any exclude term occurs anywhere in `rawText`
(full-text case-insensitive substring search, not only location tags). -/
def excludeOk (q : Query) (r : Record) : Bool :=
  q.excludeTerms.all (fun term => !containsCI r.rawText term)

/-- Modelled from the spec: the per-record predicate of
`FilterEngine.filter` — all clauses ANDed. -/
def matchesQuery (q : Query) (r : Record) : Bool :=
  minPriceOk q r && maxPriceOk q r && includeOk q r && excludeOk q r

/-- Modelled from the spec: `FilterEngine.filter` (`main.py`, whose source
is not part of the repository snapshot): keep the records of the snapshot
satisfying every clause of the query. -/
def filterRecords (snapshot : List Record) (q : Query) : List Record :=
  snapshot.filter (matchesQuery q)

/-- Claim C1: when `minPrice` or `maxPrice` is set, every record returned
by the filter has a present price whose amount satisfies each set bound;
no record with an absent price is returned. -/
theorem filter_price_bounds (snapshot : List Record) (q : Query) (r : Record)
    (hset : q.minPrice.isSome ∨ q.maxPrice.isSome)
    (hr : r ∈ filterRecords snapshot q) :
    ∃ pr, r.price = some pr ∧
      (∀ p, q.minPrice = some p → p ≤ pr.amount) ∧
      (∀ p, q.maxPrice = some p → pr.amount ≤ p) := by
  have hm := List.of_mem_filter hr
  unfold matchesQuery at hm
  rcases Bool.and_eq_true_iff.mp hm with ⟨habc, _⟩
  rcases Bool.and_eq_true_iff.mp habc with ⟨hab, _⟩
  rcases Bool.and_eq_true_iff.mp hab with ⟨hmin, hmax⟩
  cases hp : r.price with
  | none =>
    exfalso
    rcases hset with hs | hs
    · rcases Option.isSome_iff_exists.mp hs with ⟨p, hpq⟩
      unfold minPriceOk at hmin
      rw [hpq, hp] at hmin
      simp at hmin
    · rcases Option.isSome_iff_exists.mp hs with ⟨p, hpq⟩
      unfold maxPriceOk at hmax
      rw [hpq, hp] at hmax
      simp at hmax
  | some pr =>
    refine ⟨pr, rfl, ?_, ?_⟩
    · intro p hpq
      unfold minPriceOk at hmin
      rw [hpq, hp] at hmin
      simpa using hmin
    · intro p hpq
      unfold maxPriceOk at hmax
      rw [hpq, hp] at hmax
      simpa using hmax

/-- A concrete record for the claim C1 witness. -/
def sampleRecord : Record :=
  { id := 1, channel := "@ch", timestamp := 100,
    rawText := "cho thuê nhà my an, giá 12 triệu",
    price := some ⟨12000000, .vnd⟩, locationTags := ["My An"],
    photoRefs := [], viewCount := some 5, link := "https://t.me/ch/1" }

/-- Witness for claim C1 at a concrete snapshot and query. -/
theorem filter_price_bounds_witness :
    ∃ pr, sampleRecord.price = some pr ∧
      (∀ p, (some 10000000 : Option Nat) = some p → p ≤ pr.amount) ∧
      (∀ p, (none : Option Nat) = some p → pr.amount ≤ p) :=
  filter_price_bounds [sampleRecord] ⟨some 10000000, none, [], []⟩ sampleRecord
    (Or.inl rfl) (by decide)

/-- Claim C2: with a non-empty blacklist, no returned record contains any
exclude term as a case-insensitive substring of its full `rawText`. -/
theorem filter_blacklist (snapshot : List Record) (q : Query) (r : Record) (e : String)
    (he : e ∈ q.excludeTerms) (hr : r ∈ filterRecords snapshot q) :
    containsCI r.rawText e = false := by
  have hm := List.of_mem_filter hr
  unfold matchesQuery at hm
  rcases Bool.and_eq_true_iff.mp hm with ⟨_, hexc⟩
  unfold excludeOk at hexc
  have := (List.all_eq_true.mp hexc) e he
  simpa using this

/-- A concrete record for the claim C2 witness. -/
def sampleRecord2 : Record :=
  { id := 2, channel := "@ch", timestamp := 200,
    rawText := "studio son tra 5 trieu", price := none,
    locationTags := ["Son Tra"], photoRefs := [], viewCount := none,
    link := "https://t.me/ch/2" }

/-- Witness for claim C2 at a concrete snapshot and query. -/
theorem filter_blacklist_witness :
    containsCI sampleRecord2.rawText "my an" = false :=
  filter_blacklist [sampleRecord2] ⟨none, none, [], ["my an"]⟩ sampleRecord2 "my an"
    (by decide) (by decide)

inductive SortField where
  | date
  | price
  deriving DecidableEq, Repr

inductive SortDir where
  | asc
  | desc
  deriving DecidableEq, Repr

/-- Modelled from the spec: the date comparator of `SortEngine.sort`
(`main.py`, whose source is not part of the repository snapshot): order
by `timestamp` only, per direction. -/
def dateLe (d : SortDir) (a b : Record) : Bool :=
  match d with
  | .asc => decide (a.timestamp ≤ b.timestamp)
  | .desc => decide (b.timestamp ≤ a.timestamp)

/-- Modelled from the spec: the price comparator of `SortEngine.sort`:
present prices by amount per direction; a record with an absent price
sorts after every record with a present price, in either direction. -/
def priceLe (d : SortDir) (a b : Record) : Bool :=
  match a.price, b.price with
  | some pa, some pb =>
    match d with
    | .asc => decide (pa.amount ≤ pb.amount)
    | .desc => decide (pb.amount ≤ pa.amount)
  | some _, none => true
  | none, some _ => false
  | none, none => true

/-- The comparator selected by the sort key. -/
def recordLe (f : SortField) (d : SortDir) (a b : Record) : Bool :=
  match f with
  | .date => dateLe d a b
  | .price => priceLe d a b

/-- Modelled from the spec: `SortEngine.sort` (`main.py`, whose source is
not part of the repository snapshot): a stable sort (insertion sort) of
the records under the selected comparator. -/
def sortRecords (f : SortField) (d : SortDir) (l : List Record) : List Record :=
  List.insertionSort (fun a b => recordLe f d a b = true) l

/-- The sort-key value of a record: the timestamp for the date key; the
price amount (or `none` for an absent price) for the price key. -/
def sortKeyVal : SortField → Record → Option Int
  | .date, r => some r.timestamp
  | .price, r => r.price.map (fun p => (p.amount : Int))

/-- Whether every record with an absent price comes after every record
with a present price. -/
def absentAfterPresent : List Record → Bool
  | [] => true
  | r :: rest =>
    (if r.price.isNone then rest.all (fun x => x.price.isNone) else true) &&
      absentAfterPresent rest

theorem recordLe_total (f : SortField) (d : SortDir) (a b : Record) :
    recordLe f d a b = true ∨ recordLe f d b a = true := by
  cases f with
  | date =>
    cases d <;> simp [recordLe, dateLe] <;> omega
  | price =>
    cases ha : a.price <;> cases hb : b.price <;>
      cases d <;> simp [recordLe, priceLe, ha, hb] <;> omega

theorem recordLe_trans (f : SortField) (d : SortDir) (a b c : Record)
    (hab : recordLe f d a b = true) (hbc : recordLe f d b c = true) :
    recordLe f d a c = true := by
  cases f with
  | date =>
    cases d <;> simp [recordLe, dateLe] at * <;> omega
  | price =>
    cases ha : a.price <;> cases hb : b.price <;> cases hc : c.price <;>
      cases d <;> simp [recordLe, priceLe, ha, hb, hc] at * <;> omega

theorem recordLe_of_key_eq (f : SortField) (d : SortDir) (a b : Record)
    (h : sortKeyVal f a = sortKeyVal f b) : recordLe f d a b = true := by
  cases f with
  | date =>
    simp [sortKeyVal] at h
    cases d <;> simp [recordLe, dateLe, h]
  | price =>
    cases ha : a.price <;> cases hb : b.price <;>
      simp [sortKeyVal, ha, hb] at h <;>
      cases d <;> simp [recordLe, priceLe, ha, hb, h]

/-- Claim C5 (amended): for the price sort key, in either direction,
every record with an absent price sorts after every record with a
present price; and for every sort key the sort is stable — the records
sharing any fixed sort-key value appear in the output as a sublist in
their original order. -/
theorem sort_missing_price_policy :
    (∀ (d : SortDir) (l : List Record),
      (sortRecords .price d l).Pairwise (fun a b => a.price = none → b.price = none)) ∧
    (∀ (f : SortField) (d : SortDir) (l : List Record) (v : Option Int),
      (l.filter (fun r => sortKeyVal f r == v)).Sublist (sortRecords f d l)) := by
  constructor
  · intro d l
    have hs : List.Sorted (fun a b => recordLe .price d a b = true) (sortRecords .price d l) := by
      letI : IsTotal Record (fun a b => recordLe .price d a b = true) :=
        ⟨fun a b => recordLe_total .price d a b⟩
      letI : IsTrans Record (fun a b => recordLe .price d a b = true) :=
        ⟨fun a b c => recordLe_trans .price d a b c⟩
      exact List.sorted_insertionSort _ l
    refine hs.imp ?_
    intro a b hab hnone
    cases hb : b.price with
    | none => rfl
    | some pb =>
      rw [show recordLe .price d a b = priceLe d a b from rfl] at hab
      unfold priceLe at hab
      rw [hnone, hb] at hab
      simp at hab
  · intro f d l v
    apply List.sublist_insertionSort ?_ (List.filter_sublist l)
    apply List.pairwise_of_forall_mem_list
    intro a ha b hb
    have hka := List.of_mem_filter ha
    have hkb := List.of_mem_filter hb
    have : sortKeyVal f a = sortKeyVal f b := by
      have h1 : sortKeyVal f a = v := by simpa using hka
      have h2 : sortKeyVal f b = v := by simpa using hkb
      rw [h1, h2]
    exact recordLe_of_key_eq f d a b this

/-- A record with no price and the later timestamp (claim C5
counterexample input). -/
def recNoPrice : Record :=
  { id := 10, channel := "@ch", timestamp := 2, rawText := "no price here",
    price := none, locationTags := [], photoRefs := [], viewCount := none,
    link := "https://t.me/ch/10" }

/-- A record with a price and the earlier timestamp (claim C5
counterexample input). -/
def recWithPrice : Record :=
  { id := 11, channel := "@ch", timestamp := 1, rawText := "gia 12 trieu",
    price := some ⟨12000000, .vnd⟩, locationTags := [], photoRefs := [],
    viewCount := none, link := "https://t.me/ch/11" }

/-- Counterexample to claim C5 as stated: under the date key
(descending), a record with an absent price but later timestamp sorts
before a record with a present price, so the absent-after-present
placement does not hold for every sort key. -/
theorem sort_every_key_counterexample :
    ¬ (∀ (f : SortField) (d : SortDir) (l : List Record),
      absentAfterPresent (sortRecords f d l) = true) := by
  intro h
  exact absurd (h .date .desc [recNoPrice, recWithPrice]) (by decide)

/-- Witness for claim C5 (amended) at a concrete list. -/
theorem sort_missing_price_policy_witness :
    (sortRecords .price .asc [recNoPrice, recWithPrice]).Pairwise
      (fun a b => a.price = none → b.price = none) ∧
    ([recNoPrice, recWithPrice].filter
        (fun r => sortKeyVal .date r == some 2)).Sublist
      (sortRecords .date .desc [recNoPrice, recWithPrice]) :=
  ⟨sort_missing_price_policy.1 .asc _, sort_missing_price_policy.2 .date .desc _ _⟩

/-- One channel's slice of the snapshot: its records and its
last-successful-fetch timestamp. -/
structure ChannelData where
  records : List Record
  fetchedAt : Int
  deriving DecidableEq, Repr

/-- Modelled from the spec: the `SnapshotStore` cache (`main.py`, whose
source is not part of the repository snapshot): a per-channel map of
records plus fetch timestamps. -/
structure Snapshot where
  channels : List (String × ChannelData)
  deriving DecidableEq, Repr

/-- The empty snapshot present at process start. -/
def emptySnapshot : Snapshot := ⟨[]⟩

/-- Modelled from the spec: `SnapshotStore.write(channel, records)`
(`main.py`, whose source is not part of the repository snapshot):
replaces that channel's records wholesale (dropping any previous entry
for the channel) and updates that channel's fetch timestamp, leaving all
other channels' entries untouched. -/
def writeSnapshot (s : Snapshot) (channel : String) (records : List Record)
    (now : Int) : Snapshot :=
  ⟨(channel, ⟨records, now⟩) :: s.channels.filter (fun p => !(p.1 == channel))⟩

/-- The records the snapshot currently holds for a channel. -/
def recordsOf (s : Snapshot) (channel : String) : List Record :=
  match s.channels.lookup channel with
  | some d => d.records
  | none => []

/-- All records of the snapshot, across channels. -/
def allRecords (s : Snapshot) : List Record :=
  s.channels.foldr (fun p acc => p.2.records ++ acc) []

/-- The total number of records in the snapshot. -/
def totalCount (s : Snapshot) : Nat :=
  (allRecords s).length

theorem lookup_filter_ne (l : List (String × ChannelData)) (ch ch' : String)
    (h : ch' ≠ ch) :
    (l.filter (fun p => !(p.1 == ch))).lookup ch' = l.lookup ch' := by
  induction l with
  | nil => rfl
  | cons p t ih =>
    obtain ⟨k, v⟩ := p
    by_cases hp : k = ch
    · have h2 : (ch' == k) = false := by simp [hp, h]
      have h3 : (ch' == ch) = false := by simp [h]
      simp [List.filter_cons, hp, List.lookup, h2, h3, ih]
    · by_cases hq : ch' = k
      · simp [List.filter_cons, hp, List.lookup, hq]
      · simp [List.filter_cons, hp, List.lookup, hq, ih]

/-- Claim C6: `write(channel, records)` replaces that channel's records
wholesale and never disturbs other channels; writing channel `a` then
channel `b` yields the sum of both record counts, and re-writing channel
`a` replaces (not accumulates) its records. -/
theorem write_wholesale :
    (∀ s ch rs now, recordsOf (writeSnapshot s ch rs now) ch = rs) ∧
    (∀ s ch rs now ch', ch' ≠ ch →
      recordsOf (writeSnapshot s ch rs now) ch' = recordsOf s ch') ∧
    (∀ (a b : String) (l1 l2 l3 : List Record) (t1 t2 t3 : Int), a ≠ b →
      totalCount (writeSnapshot (writeSnapshot emptySnapshot a l1 t1) b l2 t2) =
        l1.length + l2.length ∧
      totalCount (writeSnapshot (writeSnapshot (writeSnapshot emptySnapshot a l1 t1)
          b l2 t2) a l3 t3) = l3.length + l2.length) := by
  refine ⟨?_, ?_, ?_⟩
  · intro s ch rs now
    unfold recordsOf writeSnapshot
    simp [List.lookup]
  · intro s ch rs now ch' h
    unfold recordsOf writeSnapshot
    have h2 : (ch' == ch) = false := by simp [h]
    simp only [List.lookup, h2, lookup_filter_ne _ _ _ h]
  · intro a b l1 l2 l3 t1 t2 t3 hab
    have hba : (b == a) = false := by simp [Ne.symm hab]
    have hab' : (a == b) = false := by simp [hab]
    constructor
    · unfold totalCount allRecords writeSnapshot emptySnapshot
      simp [List.filter, hba, hab']
      try omega
    · unfold totalCount allRecords writeSnapshot emptySnapshot
      simp [List.filter, hba, hab']
      try omega

/-- Witness for claim C6 at a concrete pair of channels and record lists:
5 records on `@a`, then 3 on `@b`, then 2 on `@a` again. -/
theorem write_wholesale_witness :
    recordsOf (writeSnapshot emptySnapshot "@a" [recNoPrice] 0) "@a" = [recNoPrice] ∧
    recordsOf (writeSnapshot (writeSnapshot emptySnapshot "@a" [recNoPrice] 0)
      "@b" [recWithPrice] 1) "@a" = [recNoPrice] ∧
    totalCount (writeSnapshot (writeSnapshot emptySnapshot "@a"
      [recNoPrice, recNoPrice, recNoPrice, recNoPrice, recNoPrice] 0)
      "@b" [recWithPrice, recWithPrice, recWithPrice] 1) = 8 ∧
    totalCount (writeSnapshot (writeSnapshot (writeSnapshot emptySnapshot "@a"
      [recNoPrice, recNoPrice, recNoPrice, recNoPrice, recNoPrice] 0)
      "@b" [recWithPrice, recWithPrice, recWithPrice] 1)
      "@a" [recNoPrice, recWithPrice] 2) = 5 := by
  refine ⟨write_wholesale.1 _ _ _ _,
    write_wholesale.2.1 _ "@b" _ _ "@a" (by decide), ?_, ?_⟩
  · exact (write_wholesale.2.2 "@a" "@b"
      [recNoPrice, recNoPrice, recNoPrice, recNoPrice, recNoPrice]
      [recWithPrice, recWithPrice, recWithPrice]
      [recNoPrice, recWithPrice] 0 1 2 (by decide)).1
  · exact (write_wholesale.2.2 "@a" "@b"
      [recNoPrice, recNoPrice, recNoPrice, recNoPrice, recNoPrice]
      [recWithPrice, recWithPrice, recWithPrice]
      [recNoPrice, recWithPrice] 0 1 2 (by decide)).2
